import Mathlib

/-
Verification development for the btmesh-operator provisioning controller
(source file src/provisioner.rs). The definitions below are a shallow
embedding of the reconciliation engine: the device record projections the
controller reads and writes, the alias and finalizer helpers, the persist
rule update_device, the per-device sweep of provision_devices, the btmesh
event handling of process_events, the device resolution of lookup_device,
and the command fan-out of publish_gateways. Machine integers (the u16 mesh
address) are modelled as Nat with explicit masking where the source masks.
The condition-set update operation and the finalizer helpers live in the
external drogue-client crate and are modelled from the specification text.
-/

namespace BtMeshOperator

/-- JSON-like values, as needed to model the untyped spec.alias field the
source manipulates through serde_json. -/
inductive JValue where
  | str (s : String)
  | arr (xs : List JValue)
  | num (n : Int)
  | jbool (b : Bool)
  | null

/-- Rust s.as_str for a serde_json value: some only on strings. -/
def JValue.asStr : JValue → Option String
  | .str s => some s
  | _ => none

/-- Rust s.as_array for a serde_json value: some only on arrays. -/
def JValue.asArray : JValue → Option (List JValue)
  | .arr xs => some xs
  | _ => none

/-- Modelled from the spec: the ConditionStatus record of the external
drogue-client crate (not part of this repository). Default is all fields
empty; a plain boolean converts to a record with only the status field. -/
structure ConditionStatus where
  status : Option Bool
  reason : Option String
  message : Option String
deriving DecidableEq

/-- Conversion of a plain boolean into a ConditionStatus, as the From
instance of the external crate does: status set, reason and message empty. -/
def boolStatus (b : Bool) : ConditionStatus :=
  ⟨some b, none, none⟩

/-- Modelled from the spec: one entry of the ordered condition set, a record
with a name, an optional boolean status, optional reason and message, and a
last transition time (modelled as a Nat instant). -/
structure Condition where
  ctype : String
  status : Option Bool
  reason : Option String
  message : Option String
  lastTransitionTime : Nat
deriving DecidableEq

/-- Find the condition with the given name (first match in order). -/
def getCond : List Condition → String → Option Condition
  | [], _ => none
  | c :: rest, name => if c.ctype = name then some c else getCond rest name

/-- Modelled from the spec: the condition-set update operation of the
external drogue-client crate (not part of this repository). It accepts a
full record, overwriting reason and message and stamping the transition
time only on status change; a missing condition is appended at the end. -/
def updateConditions (cs : List Condition) (name : String) (r : ConditionStatus)
    (t : Nat) : List Condition :=
  match cs with
  | [] => [⟨name, r.status, r.reason, r.message, t⟩]
  | c :: rest =>
    if c.ctype = name then
      ⟨c.ctype, r.status, r.reason, r.message,
        if c.status = r.status then c.lastTransitionTime else t⟩ :: rest
    else
      c :: updateConditions rest name r t

/-- The status.btmesh section: BtMeshStatus in the source. -/
structure BtMeshStatus where
  conditions : List Condition
  address : Option Nat
deriving DecidableEq

/-- The default status used when the section is absent: empty conditions,
no address (provisioner.rs lines 66 to 69 and 305 to 308). -/
def defaultStatus : BtMeshStatus :=
  ⟨[], none⟩

/-- The spec.btmesh section: BtMeshSpec in the source. -/
structure BtMeshSpec where
  device : String
deriving DecidableEq

/-- The projection of a registry device record the controller uses. The
spec and status sections are none when absent or when they fail to decode,
matching how the source treats a schema mismatch as an absent section. -/
structure Device where
  name : String
  deletionTimestamp : Option String
  finalizers : List String
  specBtmesh : Option BtMeshSpec
  specAlias : Option JValue
  statusBtmesh : Option BtMeshStatus

/-- Load the stored status section or default it, as the source does at
lines 62 to 70 and 300 to 309. -/
def storedStatus (dev : Device) : BtMeshStatus :=
  match dev.statusBtmesh with
  | some s => s
  | none => defaultStatus

/-- Modelled from the spec: the ensure_finalizer helper of the external
drogue-client crate (set semantics over metadata.finalizers): append the
name when absent, report whether the set changed. -/
def ensureFinalizer (dev : Device) (name : String) : Device × Bool :=
  if name ∈ dev.finalizers then (dev, false)
  else ({ dev with finalizers := dev.finalizers ++ [name] }, true)

/-- Modelled from the spec: the remove_finalizer helper of the external
drogue-client crate (set semantics over metadata.finalizers): drop every
occurrence of the name, report whether the set changed. -/
def removeFinalizer (dev : Device) (name : String) : Device × Bool :=
  if name ∈ dev.finalizers then
    ({ dev with finalizers := dev.finalizers.filter (fun f => f != name) }, true)
  else (dev, false)

/-- The string elements extracted from the untyped spec.alias value: an
absent field or a non-array value yields the empty list, and non-string
array elements are skipped (provisioner.rs lines 209 to 222, and the same
extraction in lookup_device lines 190 to 203). -/
def aliasStrings (dev : Device) : List String :=
  match dev.specAlias with
  | none => []
  | some v =>
    match v.asArray with
    | some xs => xs.filterMap JValue.asStr
    | none => []

/-- ensure_alias from provisioner.rs lines 208 to 235: extract the string
aliases, append the new alias when missing, always write back the
normalized string array, and return whether the set changed. -/
def ensureAlias (dev : Device) (a : String) : Device × Bool :=
  if a ∈ aliasStrings dev then
    ({ dev with
        specAlias := some (JValue.arr ((aliasStrings dev).map JValue.str)) },
      false)
  else
    ({ dev with
        specAlias := some (JValue.arr ((aliasStrings dev ++ [a]).map JValue.str)) },
      true)

/-- The persist condition computed at provisioner.rs lines 117 to 121: when
the stored section is present, the write fires if the new status differs or
the update flag is set; when it is absent only the update flag is consulted. -/
def updateNeeded (dev : Device) (status : BtMeshStatus) (update : Bool) : Bool :=
  match dev.statusBtmesh with
  | some s => if status = s then update else true
  | none => update

/-- update_device from provisioner.rs lines 116 to 139, as a pure function
from the device and the new status to the device as the registry sees it
afterwards, together with whether the registry update was invoked. -/
def updateDevice (dev : Device) (status : BtMeshStatus) (update : Bool) :
    Device × Bool :=
  if updateNeeded dev status update then
    ({ dev with statusBtmesh := some status }, true)
  else (dev, false)

/-- The registry-level effect of one update_device call issued with locally
mutated device data: when the write fires the registry holds the mutated
device with the new status section, otherwise it still holds the original. -/
def finishUpdate (orig mutated : Device) (status : BtMeshStatus) (u : Bool) :
    Device × Bool :=
  (if (updateDevice mutated status u).2 then (updateDevice mutated status u).1
    else orig,
   (updateDevice mutated status u).2)

/-- The command payloads of the source: provision with the lowercase uuid,
reset with the registry device name and the mesh address. -/
inductive BtMeshOperation where
  | Provision (device : String)
  | Reset (device : String) (address : Nat)
deriving DecidableEq

/-- The command envelope published to gateways. -/
structure BtMeshCommand where
  command : BtMeshOperation
deriving DecidableEq

/-- The topic a command for gateway g is published on (provisioner.rs
line 49). -/
def cmdTopic (app g : String) : String :=
  "command/" ++ app ++ "/" ++ g ++ "/btmesh"

/-- publish_gateways from provisioner.rs lines 45 to 57: the command is
published once per gateway in roster order, on the per-gateway topic. -/
def publishGateways (app : String) (gws : List String) (cmd : BtMeshCommand) :
    List (String × BtMeshCommand) :=
  gws.map (fun g => (cmdTopic app g, cmd))

/-- The observable lock and bus operations of publish_gateways, in program
order: the mutex guard is acquired before the loop (line 47), each loop
iteration publishes on the bus (line 52), and the guard is dropped when it
goes out of scope after the loop (line 56). -/
inductive BusOp where
  | lockAcquire
  | busPublish (topic : String)
  | lockRelease
deriving DecidableEq

/-- The operation trace of one publish_gateways call: acquire, one publish
per gateway, release. There is no clone of the roster before the loop, so
the publishes sit between acquire and release. -/
def publishGatewaysOps (app : String) (gws : List String) : List BusOp :=
  [BusOp.lockAcquire] ++ gws.map (fun g => BusOp.busPublish (cmdTopic app g))
    ++ [BusOp.lockRelease]

/-- Count the bus publishes that occur while the lock depth is positive. -/
def publishesWhileHeld : List BusOp → Nat → Nat
  | [], _ => 0
  | BusOp.lockAcquire :: rest, d => publishesWhileHeld rest (d + 1)
  | BusOp.lockRelease :: rest, d => publishesWhileHeld rest (d - 1)
  | BusOp.busPublish _ :: rest, d =>
      (if 0 < d then 1 else 0) + publishesWhileHeld rest d

/-- The sixteen lowercase hex digit characters. -/
def hexDigits : List Char :=
  "0123456789abcdef".toList

/-- The lowercase hex digit of a nibble. -/
def hexDigitChar (n : Nat) : Char :=
  hexDigits.getD (n % 16) 'f'

/-- A byte as two lowercase hex digits, as the 02x format does. -/
def hexByte (b : Nat) : String :=
  String.mk [hexDigitChar (b / 16), hexDigitChar b]

/-- The alias derived from a mesh address at provisioner.rs lines 342 to
343: the two big-endian bytes of the 16-bit address, high byte first, each
as two lowercase hex digits. -/
def addressAlias (a : Nat) : String :=
  hexByte (a / 256 % 256) ++ hexByte (a % 256)

/-- The gateway-reported event payloads (BtMeshDeviceState in the source). -/
inductive BtMeshDeviceState where
  | Provisioning (device : String) (error : Option String)
  | Provisioned (device : String) (address : Nat)
  | Reset (device : String) (error : Option String)
deriving DecidableEq

/-- The device field carried by an event (provisioner.rs lines 279 to 289). -/
def eventDevice : BtMeshDeviceState → String
  | .Provisioning d _ => d
  | .Provisioned d _ => d
  | .Reset d _ => d

/-- The structured condition written in the provisioning branch
(provisioner.rs lines 354 to 361): the default record, with status false
and a reason and message only when the event carries an error. -/
def provisioningRecord : Option String → ConditionStatus
  | some msg => ⟨some false, some "Error provisioning device", some msg⟩
  | none => ⟨none, none, none⟩

/-- Conditions after a reset event without error (lines 326 to 327):
Provisioned to false, then Provisioning to false. -/
def resetOkConds (t : Nat) (cs : List Condition) : List Condition :=
  updateConditions (updateConditions cs "Provisioned" (boolStatus false) t)
    "Provisioning" (boolStatus false) t

/-- Conditions after a reset event with an error (lines 315 to 323):
Provisioned to a structured record, then Provisioning to false. -/
def resetErrConds (msg : String) (t : Nat) (cs : List Condition) : List Condition :=
  updateConditions
    (updateConditions cs "Provisioned"
      ⟨some true, some "Error resetting device", some msg⟩ t)
    "Provisioning" (boolStatus false) t

/-- Conditions after a provisioned event (lines 339 to 340): Provisioned to
true, then Provisioning to false. -/
def provisionedConds (t : Nat) (cs : List Condition) : List Condition :=
  updateConditions (updateConditions cs "Provisioned" (boolStatus true) t)
    "Provisioning" (boolStatus false) t

/-- Conditions after a provisioning event that passes the address guard
(lines 353 to 364): Provisioning to true, then Provisioned to the
structured record. -/
def provisioningConds (err : Option String) (t : Nat) (cs : List Condition) :
    List Condition :=
  updateConditions (updateConditions cs "Provisioning" (boolStatus true) t)
    "Provisioned" (provisioningRecord err) t

/-- The finalizer ensured before dispatching on the event variant
(provisioner.rs lines 295 to 299): only for devices not being deleted. -/
def preFinalize (dev : Device) : Device × Bool :=
  match dev.deletionTimestamp with
  | none => ensureFinalizer dev "btmesh-operator"
  | some _ => (dev, false)

/-- One btmesh event applied to the device it resolved to, at model time t:
the body of process_events from provisioner.rs lines 294 to 369. Returns
the device as the registry sees it afterwards and whether the registry
update was invoked. -/
def eventStep (e : BtMeshDeviceState) (t : Nat) (dev : Device) : Device × Bool :=
  let dev1 := (preFinalize dev).1
  let updated0 := (preFinalize dev).2
  let st := storedStatus dev1
  match e with
  | .Reset _ none =>
      finishUpdate dev (removeFinalizer dev1 "btmesh-operator").1
        ⟨resetOkConds t st.conditions, st.address⟩ true
  | .Reset _ (some msg) =>
      finishUpdate dev dev1 ⟨resetErrConds msg t st.conditions, st.address⟩ true
  | .Provisioned _ a =>
      finishUpdate dev (ensureAlias dev1 (addressAlias a)).1
        ⟨provisionedConds t st.conditions, some a⟩ true
  | .Provisioning _ err =>
      if st.address = none then
        finishUpdate dev dev1
          ⟨provisioningConds err t st.conditions, st.address⟩ updated0
      else
        finishUpdate dev dev1 st updated0

/-- One device of the reconcile sweep: the loop body of provision_devices,
provisioner.rs lines 60 to 113. Returns the device as the registry sees it
afterwards, whether the registry update was invoked, and the commands
handed to publish_gateways. -/
def sweepDevice (dev : Device) : Device × Bool × List BtMeshCommand :=
  match dev.specBtmesh with
  | none => (dev, false, [])
  | some sp =>
    let st := storedStatus dev
    let uuid := sp.device.toLower
    let a1 := ensureAlias dev uuid
    match dev.deletionTimestamp with
    | none =>
      let f1 := ensureFinalizer a1.1 "btmesh-operator"
      let r := finishUpdate dev f1.1 st (a1.2 || f1.2)
      (r.1, r.2,
        if st.address = none then [⟨BtMeshOperation.Provision uuid⟩] else [])
    | some _ =>
      let r := finishUpdate dev a1.1 st a1.2
      (r.1, r.2,
        match st.address with
        | some a => [⟨BtMeshOperation.Reset dev.name a⟩]
        | none => [])

/-- One full sweep over a device listing: the registry state afterwards and
the number of registry update calls made. -/
def sweepAll (devs : List Device) : List Device × Nat :=
  (devs.map (fun d => (sweepDevice d).1),
   (devs.filter (fun d => (sweepDevice d).2.1)).length)

/-- An action the controller can take on one device: a reconcile sweep
iteration, or processing a btmesh event that resolved to the device. -/
inductive OpAction where
  | sweep
  | event (e : BtMeshDeviceState) (t : Nat)

/-- The registry-visible device after one controller action. -/
def stepDevice : OpAction → Device → Device
  | .sweep, dev => (sweepDevice dev).1
  | .event e t, dev => (eventStep e t dev).1

/-- Whether a device matches an event device field: exact equality on the
registry name, or membership among the string aliases (provisioner.rs
lines 189 to 204). -/
def devMatches (key : String) (d : Device) : Prop :=
  d.name = key ∨ key ∈ aliasStrings d

/-- lookup_device from provisioner.rs lines 182 to 206: the first device in
listing order whose name equals the event device field exactly or whose
alias strings contain it. -/
def lookupDevice (key : String) (ds : List Device) : Option Device :=
  ds.find? (fun d => d.name == key || decide (key ∈ aliasStrings d))

/-! Lemmas about the condition-set update operation. -/

theorem getCond_updateConditions_self (cs : List Condition) (n : String)
    (r : ConditionStatus) (t : Nat) :
    ∃ c, getCond (updateConditions cs n r t) n = some c ∧
      c.status = r.status ∧ c.reason = r.reason ∧ c.message = r.message := by
  induction cs with
  | nil =>
    exact ⟨⟨n, r.status, r.reason, r.message, t⟩, by simp [updateConditions, getCond],
      rfl, rfl, rfl⟩
  | cons c rest ih =>
    by_cases h : c.ctype = n
    · exact ⟨⟨c.ctype, r.status, r.reason, r.message,
        if c.status = r.status then c.lastTransitionTime else t⟩,
        by simp [updateConditions, getCond, h], rfl, rfl, rfl⟩
    · obtain ⟨c0, hc0, hs⟩ := ih
      refine ⟨c0, ?_, hs⟩
      simpa [updateConditions, getCond, h] using hc0

theorem getCond_updateConditions_other (cs : List Condition) (m n : String)
    (r : ConditionStatus) (t : Nat) (h : m ≠ n) :
    getCond (updateConditions cs m r t) n = getCond cs n := by
  induction cs with
  | nil => simp [updateConditions, getCond, h]
  | cons c rest ih =>
    by_cases hc : c.ctype = m
    · have hcn : c.ctype ≠ n := by rw [hc]; exact h
      simp [updateConditions, getCond, hc, hcn, h]
    · by_cases hn : c.ctype = n
      · simp [updateConditions, getCond, hc, hn, Ne.symm h]
      · simpa [updateConditions, getCond, hc, hn] using ih

theorem updateConditions_stable (cs : List Condition) (n : String)
    (r : ConditionStatus) (t : Nat) (c : Condition)
    (h : getCond cs n = some c) (hs : c.status = r.status)
    (hr : c.reason = r.reason) (hm : c.message = r.message) :
    updateConditions cs n r t = cs := by
  induction cs with
  | nil => simp [getCond] at h
  | cons c0 rest ih =>
    by_cases hc : c0.ctype = n
    · have hcc : c0 = c := by simpa [getCond, hc] using h
      subst hcc
      simp only [updateConditions, if_pos hc, if_pos hs]
      rw [← hs, ← hr, ← hm]
    · have h' : getCond rest n = some c := by simpa [getCond, hc] using h
      simp [updateConditions, hc, ih h']

theorem updateConditions_eq_self_matches (cs : List Condition) (n : String)
    (r : ConditionStatus) (t : Nat) (h : updateConditions cs n r t = cs) :
    ∃ c, getCond cs n = some c ∧
      c.status = r.status ∧ c.reason = r.reason ∧ c.message = r.message := by
  induction cs with
  | nil => simp [updateConditions] at h
  | cons c0 rest ih =>
    by_cases hc : c0.ctype = n
    · rw [updateConditions, if_pos hc, List.cons.injEq] at h
      rw [Condition.mk.injEq] at h
      refine ⟨c0, by simp [getCond, hc], h.1.2.1.symm, h.1.2.2.1.symm, h.1.2.2.2.1.symm⟩
    · rw [updateConditions, if_neg hc, List.cons.injEq] at h
      obtain ⟨c, hfound, hs⟩ := ih h.2
      exact ⟨c, by simpa [getCond, hc] using hfound, hs⟩

theorem updateConditions2_stable (cs : List Condition) (n1 n2 : String)
    (r1 r2 : ConditionStatus) (t1 t2 : Nat) (h : n1 ≠ n2) :
    updateConditions (updateConditions
        (updateConditions (updateConditions cs n1 r1 t1) n2 r2 t1) n1 r1 t2)
      n2 r2 t2 =
    updateConditions (updateConditions cs n1 r1 t1) n2 r2 t1 := by
  obtain ⟨c1, hc1, hm1⟩ := getCond_updateConditions_self cs n1 r1 t1
  have hc1' : getCond (updateConditions (updateConditions cs n1 r1 t1) n2 r2 t1) n1
      = some c1 := by
    rw [getCond_updateConditions_other _ n2 n1 r2 t1 (Ne.symm h)]
    exact hc1
  have e1 : updateConditions
      (updateConditions (updateConditions cs n1 r1 t1) n2 r2 t1) n1 r1 t2
      = updateConditions (updateConditions cs n1 r1 t1) n2 r2 t1 :=
    updateConditions_stable _ _ _ _ _ hc1' hm1.1 hm1.2.1 hm1.2.2
  rw [e1]
  obtain ⟨c2, hc2, hm2⟩ :=
    getCond_updateConditions_self (updateConditions cs n1 r1 t1) n2 r2 t1
  exact updateConditions_stable _ _ _ _ _ hc2 hm2.1 hm2.2.1 hm2.2.2

theorem updateConditions2_time_indep (cs : List Condition) (n1 n2 : String)
    (r1 r2 : ConditionStatus) (t1 t2 : Nat) (h : n1 ≠ n2)
    (h1 : updateConditions (updateConditions cs n1 r1 t1) n2 r2 t1 = cs) :
    updateConditions (updateConditions cs n1 r1 t2) n2 r2 t2 = cs := by
  obtain ⟨c1, hc1, hm1⟩ := getCond_updateConditions_self cs n1 r1 t1
  have hc1' : getCond cs n1 = some c1 := by
    rw [← h1, getCond_updateConditions_other _ n2 n1 r2 t1 (Ne.symm h)]
    exact hc1
  have e1 : updateConditions cs n1 r1 t2 = cs :=
    updateConditions_stable _ _ _ _ _ hc1' hm1.1 hm1.2.1 hm1.2.2
  have e1' : updateConditions cs n1 r1 t1 = cs :=
    updateConditions_stable _ _ _ _ _ hc1' hm1.1 hm1.2.1 hm1.2.2
  rw [e1' ] at h1
  obtain ⟨c2, hc2, hm2⟩ := updateConditions_eq_self_matches cs n2 r2 t1 h1
  rw [e1]
  exact updateConditions_stable _ _ _ _ _ hc2 hm2.1 hm2.2.1 hm2.2.2

/-! Lemmas about the device helpers. -/

@[simp] theorem ensureFinalizer_fst_name (dev : Device) (f : String) :
    (ensureFinalizer dev f).1.name = dev.name := by
  unfold ensureFinalizer; split <;> rfl

@[simp] theorem ensureFinalizer_fst_deletionTimestamp (dev : Device) (f : String) :
    (ensureFinalizer dev f).1.deletionTimestamp = dev.deletionTimestamp := by
  unfold ensureFinalizer; split <;> rfl

@[simp] theorem ensureFinalizer_fst_specBtmesh (dev : Device) (f : String) :
    (ensureFinalizer dev f).1.specBtmesh = dev.specBtmesh := by
  unfold ensureFinalizer; split <;> rfl

@[simp] theorem ensureFinalizer_fst_specAlias (dev : Device) (f : String) :
    (ensureFinalizer dev f).1.specAlias = dev.specAlias := by
  unfold ensureFinalizer; split <;> rfl

@[simp] theorem ensureFinalizer_fst_statusBtmesh (dev : Device) (f : String) :
    (ensureFinalizer dev f).1.statusBtmesh = dev.statusBtmesh := by
  unfold ensureFinalizer; split <;> rfl

theorem ensureFinalizer_fst_finalizers (dev : Device) (f : String) :
    (ensureFinalizer dev f).1.finalizers =
      if f ∈ dev.finalizers then dev.finalizers else dev.finalizers ++ [f] := by
  unfold ensureFinalizer; split <;> simp_all

theorem ensureFinalizer_of_mem (dev : Device) (f : String)
    (h : f ∈ dev.finalizers) : ensureFinalizer dev f = (dev, false) := by
  unfold ensureFinalizer; simp [h]

theorem mem_ensureFinalizer_self (dev : Device) (f : String) :
    f ∈ (ensureFinalizer dev f).1.finalizers := by
  rw [ensureFinalizer_fst_finalizers]; split <;> simp_all

theorem mem_ensureFinalizer_of_mem (dev : Device) (f g : String)
    (h : g ∈ dev.finalizers) : g ∈ (ensureFinalizer dev f).1.finalizers := by
  rw [ensureFinalizer_fst_finalizers]; split <;> simp [h]

@[simp] theorem removeFinalizer_fst_name (dev : Device) (f : String) :
    (removeFinalizer dev f).1.name = dev.name := by
  unfold removeFinalizer; split <;> rfl

@[simp] theorem removeFinalizer_fst_deletionTimestamp (dev : Device) (f : String) :
    (removeFinalizer dev f).1.deletionTimestamp = dev.deletionTimestamp := by
  unfold removeFinalizer; split <;> rfl

@[simp] theorem removeFinalizer_fst_specBtmesh (dev : Device) (f : String) :
    (removeFinalizer dev f).1.specBtmesh = dev.specBtmesh := by
  unfold removeFinalizer; split <;> rfl

@[simp] theorem removeFinalizer_fst_specAlias (dev : Device) (f : String) :
    (removeFinalizer dev f).1.specAlias = dev.specAlias := by
  unfold removeFinalizer; split <;> rfl

@[simp] theorem removeFinalizer_fst_statusBtmesh (dev : Device) (f : String) :
    (removeFinalizer dev f).1.statusBtmesh = dev.statusBtmesh := by
  unfold removeFinalizer; split <;> rfl

theorem removeFinalizer_fst_finalizers (dev : Device) (f : String) :
    (removeFinalizer dev f).1.finalizers =
      dev.finalizers.filter (fun x => x != f) := by
  unfold removeFinalizer
  split
  · rfl
  · next h =>
    have : ∀ x ∈ dev.finalizers, (x != f) = true := by
      intro x hx
      simp only [bne_iff_ne, ne_eq]
      intro hxf
      exact h (hxf ▸ hx)
    simp [List.filter_eq_self.mpr this]

theorem not_mem_removeFinalizer (dev : Device) (f : String) :
    f ∉ (removeFinalizer dev f).1.finalizers := by
  rw [removeFinalizer_fst_finalizers]
  intro h
  have := (List.mem_filter.mp h).2
  simp at this

theorem filter_bne_self_of_not_mem (l : List String) (f : String)
    (h : f ∉ l) : l.filter (fun x => x != f) = l := by
  apply List.filter_eq_self.mpr
  intro x hx
  simp only [bne_iff_ne, ne_eq]
  intro hxf
  exact h (hxf ▸ hx)

@[simp] theorem ensureAlias_fst_name (dev : Device) (a : String) :
    (ensureAlias dev a).1.name = dev.name := by
  unfold ensureAlias; split <;> rfl

@[simp] theorem ensureAlias_fst_deletionTimestamp (dev : Device) (a : String) :
    (ensureAlias dev a).1.deletionTimestamp = dev.deletionTimestamp := by
  unfold ensureAlias; split <;> rfl

@[simp] theorem ensureAlias_fst_specBtmesh (dev : Device) (a : String) :
    (ensureAlias dev a).1.specBtmesh = dev.specBtmesh := by
  unfold ensureAlias; split <;> rfl

@[simp] theorem ensureAlias_fst_finalizers (dev : Device) (a : String) :
    (ensureAlias dev a).1.finalizers = dev.finalizers := by
  unfold ensureAlias; split <;> rfl

@[simp] theorem ensureAlias_fst_statusBtmesh (dev : Device) (a : String) :
    (ensureAlias dev a).1.statusBtmesh = dev.statusBtmesh := by
  unfold ensureAlias; split <;> rfl

theorem filterMap_asStr_map_str (l : List String) :
    (l.map JValue.str).filterMap JValue.asStr = l := by
  induction l with
  | nil => rfl
  | cons x xs ih => simp [JValue.asStr, ih]

theorem aliasStrings_set_specAlias_arr (dev : Device) (l : List String) :
    aliasStrings
      { dev with specAlias := some (JValue.arr (l.map JValue.str)) } = l :=
  filterMap_asStr_map_str l

theorem ensureAlias_fst_specAlias (dev : Device) (a : String) :
    (ensureAlias dev a).1.specAlias =
      some (JValue.arr ((if a ∈ aliasStrings dev then aliasStrings dev
        else aliasStrings dev ++ [a]).map JValue.str)) := by
  unfold ensureAlias; split <;> simp_all

theorem aliasStrings_ensureAlias (dev : Device) (a : String) :
    aliasStrings (ensureAlias dev a).1 =
      if a ∈ aliasStrings dev then aliasStrings dev
        else aliasStrings dev ++ [a] := by
  unfold ensureAlias
  split
  · exact aliasStrings_set_specAlias_arr dev _
  · exact aliasStrings_set_specAlias_arr dev _

theorem mem_aliasStrings_ensureAlias (dev : Device) (a : String) :
    a ∈ aliasStrings (ensureAlias dev a).1 := by
  rw [aliasStrings_ensureAlias]; split <;> simp_all

theorem ensureAlias_snd (dev : Device) (a : String) :
    (ensureAlias dev a).2 = !decide (a ∈ aliasStrings dev) := by
  unfold ensureAlias; split <;> simp_all

@[simp] theorem aliasStrings_set_statusBtmesh (dev : Device) (s : Option BtMeshStatus) :
    aliasStrings { dev with statusBtmesh := s } = aliasStrings dev := rfl

theorem updateDevice_of_update (dev : Device) (st : BtMeshStatus) :
    updateDevice dev st true = ({ dev with statusBtmesh := some st }, true) := by
  unfold updateDevice updateNeeded
  cases h : dev.statusBtmesh <;> simp [h]

@[simp] theorem updateDevice_fst_name (dev : Device) (st : BtMeshStatus) (u : Bool) :
    (updateDevice dev st u).1.name = dev.name := by
  unfold updateDevice; split <;> rfl

@[simp] theorem updateDevice_fst_deletionTimestamp (dev : Device)
    (st : BtMeshStatus) (u : Bool) :
    (updateDevice dev st u).1.deletionTimestamp = dev.deletionTimestamp := by
  unfold updateDevice; split <;> rfl

@[simp] theorem updateDevice_fst_specBtmesh (dev : Device) (st : BtMeshStatus)
    (u : Bool) :
    (updateDevice dev st u).1.specBtmesh = dev.specBtmesh := by
  unfold updateDevice; split <;> rfl

@[simp] theorem updateDevice_fst_specAlias (dev : Device) (st : BtMeshStatus)
    (u : Bool) :
    (updateDevice dev st u).1.specAlias = dev.specAlias := by
  unfold updateDevice; split <;> rfl

@[simp] theorem updateDevice_fst_finalizers (dev : Device) (st : BtMeshStatus)
    (u : Bool) :
    (updateDevice dev st u).1.finalizers = dev.finalizers := by
  unfold updateDevice; split <;> rfl

theorem finishUpdate_of_update (orig mutated : Device) (st : BtMeshStatus) :
    finishUpdate orig mutated st true =
      ({ mutated with statusBtmesh := some st }, true) := by
  unfold finishUpdate
  rw [updateDevice_of_update]
  simp

theorem finishUpdate_stored_same_false (orig mutated : Device) (st : BtMeshStatus)
    (h : mutated.statusBtmesh = some st) :
    finishUpdate orig mutated st false = (orig, false) := by
  unfold finishUpdate updateDevice updateNeeded
  simp [h]

theorem finishUpdate_none_false (orig mutated : Device) (st : BtMeshStatus)
    (h : mutated.statusBtmesh = none) :
    finishUpdate orig mutated st false = (orig, false) := by
  unfold finishUpdate updateDevice updateNeeded
  simp [h]

theorem finishUpdate_snd_stored_same (orig mutated : Device) (st : BtMeshStatus)
    (u : Bool) (h : mutated.statusBtmesh = some st) :
    (finishUpdate orig mutated st u).2 = u := by
  unfold finishUpdate updateDevice updateNeeded
  cases u <;> simp [h]

theorem finishUpdate_fst_finalizers_or (orig mutated : Device) (st : BtMeshStatus)
    (u : Bool) :
    (finishUpdate orig mutated st u).1.finalizers = orig.finalizers ∨
    (finishUpdate orig mutated st u).1.finalizers = mutated.finalizers := by
  unfold finishUpdate
  split
  · right; exact updateDevice_fst_finalizers mutated st u
  · left; rfl

theorem finishUpdate_fst_or (orig mutated : Device) (st : BtMeshStatus) (u : Bool) :
    (finishUpdate orig mutated st u).1 = orig ∨
    (finishUpdate orig mutated st u).1 =
      { mutated with statusBtmesh := some st } := by
  unfold finishUpdate updateDevice
  split
  · right; rfl
  · left; rfl

theorem finishUpdate_not_fired (orig mutated : Device) (st : BtMeshStatus) (u : Bool)
    (h : (finishUpdate orig mutated st u).2 = false) :
    u = false ∧ ∀ s, mutated.statusBtmesh = some s → st = s := by
  cases u with
  | true =>
    rw [finishUpdate_of_update] at h
    cases h
  | false =>
    refine ⟨rfl, ?_⟩
    intro s hs
    by_cases hst : st = s
    · exact hst
    · exfalso
      unfold finishUpdate updateDevice updateNeeded at h
      simp [hs, hst] at h

theorem finishUpdate_fst_of_not_fired (orig mutated : Device) (st : BtMeshStatus)
    (u : Bool) (h : (finishUpdate orig mutated st u).2 = false) :
    (finishUpdate orig mutated st u).1 = orig := by
  unfold finishUpdate at *
  rcases hr : (updateDevice mutated st u).2 with _ | _
  · simp [hr]
  · simp [hr] at h

@[simp] theorem storedStatus_set (dev : Device) (st : BtMeshStatus) :
    storedStatus { dev with statusBtmesh := some st } = st := rfl

@[simp] theorem preFinalize_fst_statusBtmesh (dev : Device) :
    (preFinalize dev).1.statusBtmesh = dev.statusBtmesh := by
  unfold preFinalize
  cases h : dev.deletionTimestamp <;> simp [h]

@[simp] theorem preFinalize_fst_deletionTimestamp (dev : Device) :
    (preFinalize dev).1.deletionTimestamp = dev.deletionTimestamp := by
  unfold preFinalize
  cases h : dev.deletionTimestamp <;> simp [h]

@[simp] theorem preFinalize_fst_specAlias (dev : Device) :
    (preFinalize dev).1.specAlias = dev.specAlias := by
  unfold preFinalize
  cases h : dev.deletionTimestamp <;> simp [h]

@[simp] theorem preFinalize_fst_specBtmesh (dev : Device) :
    (preFinalize dev).1.specBtmesh = dev.specBtmesh := by
  unfold preFinalize
  cases h : dev.deletionTimestamp <;> simp [h]

@[simp] theorem storedStatus_preFinalize (dev : Device) :
    storedStatus (preFinalize dev).1 = storedStatus dev := by
  unfold storedStatus
  rw [preFinalize_fst_statusBtmesh]

/-! Claim C2: the persist rule of update_device. -/

/-- A concrete device with no stored status subsection. -/
def devNoStatus : Device :=
  ⟨"d1", none, [], none, none, none⟩

/-- A concrete nonempty status, distinct from anything stored (nothing is
stored on devNoStatus). -/
def statusC2 : BtMeshStatus :=
  ⟨[⟨"Provisioning", some true, none, none, 0⟩], none⟩

/-- C2 counterexample: the claim states that update_device writes and calls
the registry iff force is true or the new status differs from the currently
stored subsection, counting an absent stored subsection as differing. At a
device with no stored status subsection, force false, and a nonempty new
status, that equivalence is false: the code consults only the force flag
when no subsection is stored, so no write happens. -/
theorem update_device_persist_rule_counterexample :
    ¬ ((updateDevice devNoStatus statusC2 false).2 = true ↔
        (false = true ∨ devNoStatus.statusBtmesh ≠ some statusC2)) := by
  decide

/-- C2 (amended): update_device writes the status subsection into the device
and calls the registry update iff the force flag is set, or a status
subsection is stored and the new status differs from it; when no status
subsection is stored, only the force flag triggers the write. When the
write fires the device carries the new subsection; otherwise it is
unchanged. -/
theorem update_device_persist_rule (dev : Device) (st : BtMeshStatus)
    (force : Bool) :
    ((updateDevice dev st force).2 = true ↔
      (force = true ∨ ∃ s, dev.statusBtmesh = some s ∧ st ≠ s)) ∧
    ((updateDevice dev st force).2 = true →
      (updateDevice dev st force).1 = { dev with statusBtmesh := some st }) ∧
    ((updateDevice dev st force).2 = false →
      (updateDevice dev st force).1 = dev) := by
  unfold updateDevice updateNeeded
  cases h : dev.statusBtmesh with
  | none => cases force <;> simp
  | some s =>
    by_cases hst : st = s
    · cases force <;> simp [hst]
    · simp [hst]

/-- C2 witness: the amended persist rule applied at a concrete input with
the force flag set fires the write. -/
theorem update_device_persist_rule_witness :
    (updateDevice devNoStatus statusC2 true).2 = true :=
  (update_device_persist_rule devNoStatus statusC2 true).1.mpr (Or.inl rfl)

/-! Claim C8: the roster lock discipline of publish_gateways. -/

/-- C8 counterexample: the claim states that no bus publish happens while
the roster mutex is held. With a single gateway in the roster, the trace of
publish_gateways performs its one publish strictly between the guard
acquisition and the guard drop, so the count of publishes made while the
lock is held is one, not zero. -/
theorem publish_gateways_lock_counterexample :
    ¬ (publishesWhileHeld (publishGatewaysOps "app" ["g1"]) 0 = 0) := by
  decide

theorem publishesWhileHeld_publishList (app : String) (gws : List String)
    (d : Nat) (hd : 0 < d) :
    publishesWhileHeld
      (gws.map (fun g => BusOp.busPublish (cmdTopic app g)) ++ [BusOp.lockRelease])
      d = gws.length := by
  induction gws with
  | nil => simp [publishesWhileHeld]
  | cons g rest ih => simp [publishesWhileHeld, hd, ih, Nat.add_comm]

/-- C8 (amended): publish_gateways takes the roster mutex guard before the
publish loop and drops it only after the loop, with no snapshot of the
roster taken first, so every per-gateway bus publish occurs while the lock
is held: the publishes made at positive lock depth number exactly one per
gateway. -/
theorem publish_gateways_lock_held (app : String) (gws : List String) :
    publishesWhileHeld (publishGatewaysOps app gws) 0 = gws.length := by
  unfold publishGatewaysOps
  rw [List.singleton_append]
  exact publishesWhileHeld_publishList app gws 1 (by norm_num)

/-! Claim C9: alias normalization in ensure_alias. -/

/-- C9: ensure_alias extracts only the string elements of spec.alias (an
absent field or non-array value counts as the empty list and non-string
elements are skipped), appends the alias exactly when it is not among the
extracted strings, always writes back a pure string array, and reports a
change exactly when the alias was not among the extracted strings. -/
theorem ensure_alias_normalization (dev : Device) (a : String) :
    ((ensureAlias dev a).2 = true ↔ a ∉ aliasStrings dev) ∧
    (ensureAlias dev a).1.specAlias =
      some (JValue.arr ((if a ∈ aliasStrings dev then aliasStrings dev
        else aliasStrings dev ++ [a]).map JValue.str)) ∧
    (dev.specAlias = none → aliasStrings dev = []) ∧
    (∀ v, dev.specAlias = some v → v.asArray = none → aliasStrings dev = []) ∧
    (∀ v xs, dev.specAlias = some v → v.asArray = some xs →
      aliasStrings dev = xs.filterMap JValue.asStr) := by
  refine ⟨?_, ensureAlias_fst_specAlias dev a, ?_, ?_, ?_⟩
  · rw [ensureAlias_snd]; simp
  · intro h; simp [aliasStrings, h]
  · intro v hv hna; simp [aliasStrings, hv, hna]
  · intro v xs hv hxs; simp [aliasStrings, hv, hxs]

/-- A concrete device whose alias field holds a number and a string. -/
def devMixedAlias : Device :=
  ⟨"d2", none, [], none, some (JValue.arr [JValue.num 7, JValue.str "x"]), none⟩

/-- C9 witness: on a device whose alias array mixes a number with a string,
ensure_alias reports a change for a fresh alias and writes back the pure
string array. -/
theorem ensure_alias_normalization_witness :
    (ensureAlias devMixedAlias "y").2 = true ∧
    (ensureAlias devMixedAlias "y").1.specAlias =
      some (JValue.arr [JValue.str "x", JValue.str "y"]) := by
  constructor
  · exact (ensure_alias_normalization devMixedAlias "y").1.mpr (by decide)
  · exact (ensure_alias_normalization devMixedAlias "y").2.1

/-! Claim C1: address pinning on provisioning events. -/

/-- C1: processing a provisioning event for a device whose stored status has
an address leaves the status subsection, conditions included, unchanged; in
particular the Provisioning condition is never set while the address is
present, because the guard at provisioner.rs line 352 only lets the
condition updates run when the stored address is none. -/
theorem provisioning_event_address_pinning (dev : Device) (st : BtMeshStatus)
    (a t : Nat) (d : String) (err : Option String)
    (h1 : dev.statusBtmesh = some st) (h2 : st.address = some a) :
    (eventStep (.Provisioning d err) t dev).1.statusBtmesh = some st := by
  have hst : storedStatus dev = st := by unfold storedStatus; rw [h1]
  have hguard : ¬ ((storedStatus (preFinalize dev).1).address = none) := by
    rw [storedStatus_preFinalize, hst, h2]; simp
  simp only [eventStep]
  rw [if_neg hguard]
  cases hu : (preFinalize dev).2 with
  | true =>
    rw [finishUpdate_of_update]
    simp [storedStatus_preFinalize, hst]
  | false =>
    rw [finishUpdate_stored_same_false]
    · simpa using h1
    · rw [preFinalize_fst_statusBtmesh, h1, storedStatus_preFinalize, hst]

/-- A concrete provisioned device: address stored, both conditions set. -/
def devPinned : Device :=
  ⟨"d1", none, ["btmesh-operator"], some ⟨"AB12CD"⟩,
    some (JValue.arr [JValue.str "ab12cd", JValue.str "1234"]),
    some ⟨[⟨"Provisioned", some true, none, none, 3⟩,
           ⟨"Provisioning", some false, none, none, 3⟩], some 4660⟩⟩

/-- C1 witness: a provisioning error event arriving for the concrete
provisioned device leaves its status subsection untouched. -/
theorem provisioning_event_address_pinning_witness :
    (eventStep (.Provisioning "ab12cd" (some "radio")) 9 devPinned).1.statusBtmesh
      = devPinned.statusBtmesh :=
  provisioning_event_address_pinning devPinned
    ⟨[⟨"Provisioned", some true, none, none, 3⟩,
      ⟨"Provisioning", some false, none, none, 3⟩], some 4660⟩
    4660 9 "ab12cd" (some "radio") rfl rfl

/-! Claim C4: the provisioned-event postcondition. -/

theorem hexDigitChar_mem (n : Nat) : hexDigitChar n ∈ hexDigits := by
  have h : n % 16 < 16 := Nat.mod_lt _ (by norm_num)
  have hall : ∀ m : Fin 16, hexDigits.getD m.1 'f' ∈ hexDigits := by decide
  exact hall ⟨n % 16, h⟩

theorem addressAlias_length (a : Nat) : (addressAlias a).length = 4 := rfl

theorem addressAlias_chars (a : Nat) :
    ∀ c ∈ (addressAlias a).toList, c ∈ hexDigits := by
  intro c hc
  have he : (addressAlias a).toList =
      [hexDigitChar (a / 256 % 256 / 16), hexDigitChar (a / 256 % 256),
       hexDigitChar (a % 256 / 16), hexDigitChar (a % 256)] := rfl
  rw [he] at hc
  simp only [List.mem_cons, List.not_mem_nil, or_false] at hc
  rcases hc with rfl | rfl | rfl | rfl <;> exact hexDigitChar_mem _

/-- C4: a provisioned event with address a marks the device updated, stores
a status whose address is a and whose Provisioned condition is true and
Provisioning condition is false, and ensures that the alias list contains
the address alias: a four-character string of lowercase hex digits, built
from the big-endian bytes of the address, high byte first. -/
theorem provisioned_event_postconditions (dev : Device) (d : String) (a t : Nat) :
    (eventStep (.Provisioned d a) t dev).2 = true ∧
    (∃ st, (eventStep (.Provisioned d a) t dev).1.statusBtmesh = some st ∧
      st.address = some a ∧
      (getCond st.conditions "Provisioned").map Condition.status
        = some (some true) ∧
      (getCond st.conditions "Provisioning").map Condition.status
        = some (some false)) ∧
    addressAlias a ∈ aliasStrings (eventStep (.Provisioned d a) t dev).1 ∧
    addressAlias a =
      hexByte (a / 256 % 256) ++ hexByte (a % 256) ∧
    (addressAlias a).length = 4 ∧
    (∀ c ∈ (addressAlias a).toList, c ∈ hexDigits) := by
  have hstep : eventStep (.Provisioned d a) t dev =
      ({ (ensureAlias (preFinalize dev).1 (addressAlias a)).1 with
          statusBtmesh := some
            ⟨provisionedConds t (storedStatus (preFinalize dev).1).conditions,
             some a⟩ }, true) := by
    simp only [eventStep]
    rw [finishUpdate_of_update]
  refine ⟨by rw [hstep], ?_, ?_, rfl, addressAlias_length a, addressAlias_chars a⟩
  · refine ⟨_, by rw [hstep], rfl, ?_, ?_⟩
    · show (getCond (provisionedConds t
          (storedStatus (preFinalize dev).1).conditions) "Provisioned").map
          Condition.status = some (some true)
      unfold provisionedConds
      rw [getCond_updateConditions_other _ "Provisioning" "Provisioned" _ _
        (by decide)]
      obtain ⟨c, hc, hs, _, _⟩ := getCond_updateConditions_self
        (storedStatus (preFinalize dev).1).conditions "Provisioned"
        (boolStatus true) t
      rw [hc]
      simp [hs, boolStatus]
    · show (getCond (provisionedConds t
          (storedStatus (preFinalize dev).1).conditions) "Provisioning").map
          Condition.status = some (some false)
      unfold provisionedConds
      obtain ⟨c, hc, hs, _, _⟩ := getCond_updateConditions_self
        (updateConditions (storedStatus (preFinalize dev).1).conditions
          "Provisioned" (boolStatus true) t) "Provisioning" (boolStatus false) t
      rw [hc]
      simp [hs, boolStatus]
  · rw [hstep]
    have hm := mem_aliasStrings_ensureAlias (preFinalize dev).1 (addressAlias a)
    simpa using hm

/-! Claim C7: the terminating-device sweep. -/

/-- C7: one sweep of a device with a btmesh spec, a deletion timestamp, and
a stored address a emits exactly one reset command carrying the registry
name (not the uuid) and the address a; publish_gateways hands that command
to every gateway in the roster on its own topic; the finalizer set is left
untouched; the status is persisted exactly when the alias set changed. -/
theorem terminating_sweep (dev : Device) (sp : BtMeshSpec) (ts : String)
    (st : BtMeshStatus) (a : Nat)
    (h1 : dev.specBtmesh = some sp) (h2 : dev.deletionTimestamp = some ts)
    (h3 : dev.statusBtmesh = some st) (h4 : st.address = some a) :
    (sweepDevice dev).2.2 = [⟨BtMeshOperation.Reset dev.name a⟩] ∧
    (sweepDevice dev).1.finalizers = dev.finalizers ∧
    ((sweepDevice dev).2.1 = true ↔ sp.device.toLower ∉ aliasStrings dev) ∧
    (∀ app gws g, g ∈ gws →
      (cmdTopic app g, BtMeshCommand.mk (BtMeshOperation.Reset dev.name a)) ∈
        publishGateways app gws ⟨BtMeshOperation.Reset dev.name a⟩) := by
  have hst : storedStatus dev = st := by unfold storedStatus; rw [h3]
  have hmut : (ensureAlias dev sp.device.toLower).1.statusBtmesh
      = some (storedStatus dev) := by
    rw [ensureAlias_fst_statusBtmesh, h3, hst]
  refine ⟨?_, ?_, ?_, ?_⟩
  · simp only [sweepDevice, h1, h2]
    rw [hst, h4]
  · simp only [sweepDevice, h1, h2]
    rcases finishUpdate_fst_finalizers_or dev (ensureAlias dev sp.device.toLower).1
        (storedStatus dev) (ensureAlias dev sp.device.toLower).2 with h | h
    · rw [h]
    · rw [h, ensureAlias_fst_finalizers]
  · simp only [sweepDevice, h1, h2]
    rw [finishUpdate_snd_stored_same _ _ _ _ hmut, ensureAlias_snd]
    simp
  · intro app gws g hg
    exact List.mem_map_of_mem _ hg

/-- A concrete terminating device with a stored address. -/
def devTerminating : Device :=
  ⟨"d1", some "2022-01-01T00:00:00Z", ["btmesh-operator"], some ⟨"AB12CD"⟩,
    some (JValue.arr [JValue.str "ab12cd", JValue.str "1234"]),
    some ⟨[⟨"Provisioned", some true, none, none, 3⟩], some 4660⟩⟩

/-- C7 witness: the terminating sweep of the concrete device emits the reset
command with the registry name and address 4660 and keeps the finalizer. -/
theorem terminating_sweep_witness :
    (sweepDevice devTerminating).2.2 =
      [⟨BtMeshOperation.Reset "d1" 4660⟩] ∧
    (sweepDevice devTerminating).1.finalizers = ["btmesh-operator"] := by
  have h := terminating_sweep devTerminating ⟨"AB12CD"⟩ "2022-01-01T00:00:00Z"
    ⟨[⟨"Provisioned", some true, none, none, 3⟩], some 4660⟩ 4660 rfl rfl rfl rfl
  exact ⟨h.1, h.2.1⟩

/-! Claim C10: event device resolution. -/

theorem devMatches_iff (key : String) (d : Device) :
    (d.name == key || decide (key ∈ aliasStrings d)) = true ↔ devMatches key d := by
  simp [devMatches]

/-- C10: lookup_device resolves an event device field by exact, case
sensitive string comparison against the registry name and the alias
strings: it returns none exactly when no listed device matches, it returns
the first matching device in listing order, and on a concrete device named
d1 with stored lowercase alias ab12cd the uppercase key AB12CD resolves to
nothing while ab12cd resolves to the device. -/
theorem lookup_device_resolution :
    (∀ key ds, lookupDevice key ds = none ↔ ∀ d ∈ ds, ¬ devMatches key d) ∧
    (∀ key (ds1 : List Device) d ds2, devMatches key d →
      (∀ d2 ∈ ds1, ¬ devMatches key d2) →
      lookupDevice key (ds1 ++ d :: ds2) = some d) ∧
    (lookupDevice "AB12CD" [devPinned] = none ∧
     lookupDevice "ab12cd" [devPinned] = some devPinned) := by
  refine ⟨?_, ?_, rfl, rfl⟩
  · intro key ds
    unfold lookupDevice
    rw [List.find?_eq_none]
    constructor
    · intro h d hd hm
      exact h d hd ((devMatches_iff key d).mpr hm)
    · intro h d hd hp
      exact h d hd ((devMatches_iff key d).mp hp)
  · intro key ds1 d ds2 hd hnone
    induction ds1 with
    | nil =>
      have hp : (d.name == key || decide (key ∈ aliasStrings d)) = true :=
        (devMatches_iff key d).mpr hd
      unfold lookupDevice
      rw [List.nil_append]
      exact List.find?_cons_of_pos ds2 hp
    | cons x xs ih =>
      have hx : ¬ ((x.name == key || decide (key ∈ aliasStrings x)) = true) := by
        intro hp
        exact hnone x (by simp) ((devMatches_iff key x).mp hp)
      have hx0 : (x.name == key || decide (key ∈ aliasStrings x)) = false := by
        simpa using hx
      unfold lookupDevice at ih ⊢
      have step : List.find?
          (fun d2 => d2.name == key || decide (key ∈ aliasStrings d2))
          (x :: (xs ++ d :: ds2)) = List.find?
          (fun d2 => d2.name == key || decide (key ∈ aliasStrings d2))
          (xs ++ d :: ds2) := List.find?_cons_of_neg _ hx
      rw [List.cons_append, step]
      exact ih (fun d2 h2 => hnone d2 (by simp [h2]))

/-- C10 witness: a lowercase alias resolves the concrete device, its
uppercase variant does not, and the first of two matching devices wins. -/
theorem lookup_device_resolution_witness :
    lookupDevice "ab12cd" [devPinned] = some devPinned ∧
    lookupDevice "d1" ([] ++ devPinned :: [devTerminating]) = some devPinned := by
  constructor
  · exact lookup_device_resolution.2.2.2
  · exact lookup_device_resolution.2.1 "d1" [] devPinned [devTerminating]
      (Or.inl rfl) (by intro d2 h2; cases h2)

/-! Claim C3: finalizer removal discipline. -/

theorem preFinalize_mem (dev : Device) (f : String) (hf : f ∈ dev.finalizers) :
    f ∈ (preFinalize dev).1.finalizers := by
  unfold preFinalize
  cases h : dev.deletionTimestamp with
  | none => exact mem_ensureFinalizer_of_mem dev "btmesh-operator" f hf
  | some ts => simpa using hf

theorem mem_finishUpdate_finalizers (orig mutated : Device) (st : BtMeshStatus)
    (u : Bool) (f : String) (h1 : f ∈ orig.finalizers)
    (h2 : f ∈ mutated.finalizers) :
    f ∈ (finishUpdate orig mutated st u).1.finalizers := by
  rcases finishUpdate_fst_finalizers_or orig mutated st u with h | h
  · rw [h]; exact h1
  · rw [h]; exact h2

theorem sweepDevice_preserves_finalizer (dev : Device) (f : String)
    (hf : f ∈ dev.finalizers) : f ∈ (sweepDevice dev).1.finalizers := by
  rcases hsp : dev.specBtmesh with _ | sp
  · simp only [sweepDevice, hsp]
    exact hf
  · rcases hdt : dev.deletionTimestamp with _ | ts
    · simp only [sweepDevice, hsp, hdt]
      apply mem_finishUpdate_finalizers _ _ _ _ _ hf
      apply mem_ensureFinalizer_of_mem
      rw [ensureAlias_fst_finalizers]
      exact hf
    · simp only [sweepDevice, hsp, hdt]
      apply mem_finishUpdate_finalizers _ _ _ _ _ hf
      rw [ensureAlias_fst_finalizers]
      exact hf

/-- C3: the btmesh-operator finalizer is removed from a device only by
processing a reset event without error; a sweep never removes any
finalizer; and the reset-without-error handling marks the device updated,
leaves the finalizer absent, and stores both the Provisioned and
Provisioning conditions as false. -/
theorem finalizer_removal_discipline :
    (∀ dev act, "btmesh-operator" ∈ dev.finalizers →
      "btmesh-operator" ∉ (stepDevice act dev).finalizers →
      ∃ d t, act = OpAction.event (BtMeshDeviceState.Reset d none) t) ∧
    (∀ dev f, f ∈ dev.finalizers →
      f ∈ (stepDevice OpAction.sweep dev).finalizers) ∧
    (∀ dev d t,
      (eventStep (BtMeshDeviceState.Reset d none) t dev).2 = true ∧
      "btmesh-operator" ∉
        (eventStep (BtMeshDeviceState.Reset d none) t dev).1.finalizers ∧
      (∃ st, (eventStep (BtMeshDeviceState.Reset d none) t dev).1.statusBtmesh
          = some st ∧
        (getCond st.conditions "Provisioned").map Condition.status
          = some (some false) ∧
        (getCond st.conditions "Provisioning").map Condition.status
          = some (some false))) := by
  refine ⟨?_, ?_, ?_⟩
  · intro dev act hmem hnot
    cases act with
    | sweep => exact absurd (sweepDevice_preserves_finalizer dev _ hmem) hnot
    | event e t =>
      cases e with
      | Reset d err =>
        cases err with
        | none => exact ⟨d, t, rfl⟩
        | some msg =>
          exfalso
          apply hnot
          show "btmesh-operator" ∈
            (eventStep (BtMeshDeviceState.Reset d (some msg)) t dev).1.finalizers
          simp only [eventStep]
          exact mem_finishUpdate_finalizers _ _ _ _ _ hmem
            (preFinalize_mem dev _ hmem)
      | Provisioned d a =>
        exfalso
        apply hnot
        show "btmesh-operator" ∈
          (eventStep (BtMeshDeviceState.Provisioned d a) t dev).1.finalizers
        simp only [eventStep]
        apply mem_finishUpdate_finalizers _ _ _ _ _ hmem
        rw [ensureAlias_fst_finalizers]
        exact preFinalize_mem dev _ hmem
      | Provisioning d e0 =>
        exfalso
        apply hnot
        show "btmesh-operator" ∈
          (eventStep (BtMeshDeviceState.Provisioning d e0) t dev).1.finalizers
        simp only [eventStep]
        split
        · exact mem_finishUpdate_finalizers _ _ _ _ _ hmem
            (preFinalize_mem dev _ hmem)
        · exact mem_finishUpdate_finalizers _ _ _ _ _ hmem
            (preFinalize_mem dev _ hmem)
  · intro dev f hf
    exact sweepDevice_preserves_finalizer dev f hf
  · intro dev d t
    have hstep : eventStep (BtMeshDeviceState.Reset d none) t dev =
        ({ (removeFinalizer (preFinalize dev).1 "btmesh-operator").1 with
            statusBtmesh := some
              ⟨resetOkConds t (storedStatus (preFinalize dev).1).conditions,
               (storedStatus (preFinalize dev).1).address⟩ }, true) := by
      simp only [eventStep]
      rw [finishUpdate_of_update]
    refine ⟨by rw [hstep], ?_, ?_⟩
    · rw [hstep]
      exact not_mem_removeFinalizer (preFinalize dev).1 "btmesh-operator"
    · refine ⟨_, by rw [hstep], ?_, ?_⟩
      · show (getCond (resetOkConds t
            (storedStatus (preFinalize dev).1).conditions) "Provisioned").map
            Condition.status = some (some false)
        unfold resetOkConds
        rw [getCond_updateConditions_other _ "Provisioning" "Provisioned" _ _
          (by decide)]
        obtain ⟨c, hc, hs, _, _⟩ := getCond_updateConditions_self
          (storedStatus (preFinalize dev).1).conditions "Provisioned"
          (boolStatus false) t
        rw [hc]
        simp [hs, boolStatus]
      · show (getCond (resetOkConds t
            (storedStatus (preFinalize dev).1).conditions) "Provisioning").map
            Condition.status = some (some false)
        unfold resetOkConds
        obtain ⟨c, hc, hs, _, _⟩ := getCond_updateConditions_self
          (updateConditions (storedStatus (preFinalize dev).1).conditions
            "Provisioned" (boolStatus false) t) "Provisioning" (boolStatus false) t
        rw [hc]
        simp [hs, boolStatus]

/-- C3 witness: on a concrete device carrying the finalizer, losing the
finalizer in one step forces the step to be a reset event without error. -/
theorem finalizer_removal_discipline_witness :
    ∃ d t, OpAction.event (BtMeshDeviceState.Reset "x" none) 5 =
      OpAction.event (BtMeshDeviceState.Reset d none) t :=
  finalizer_removal_discipline.1 devPinned
    (OpAction.event (BtMeshDeviceState.Reset "x" none) 5) (by decide) (by decide)

/-! Claim C5: sweep idempotence. -/

theorem finishUpdate_fst_of_fired (orig mutated : Device) (st : BtMeshStatus)
    (u : Bool) (h : (finishUpdate orig mutated st u).2 = true) :
    (finishUpdate orig mutated st u).1 =
      { mutated with statusBtmesh := some st } := by
  have h2 : (updateDevice mutated st u).2 = true := h
  have h1 : updateDevice mutated st u =
      ({ mutated with statusBtmesh := some st }, true) := by
    unfold updateDevice at h2 ⊢
    rcases hn : updateNeeded mutated st u with _ | _
    · rw [hn] at h2; simp at h2
    · simp
  unfold finishUpdate
  simp [h1]

theorem ensureFinalizer_snd_of_mem (dev : Device) (f : String)
    (h : f ∈ dev.finalizers) : (ensureFinalizer dev f).2 = false := by
  unfold ensureFinalizer; simp [h]

theorem ensureAlias_snd_of_mem (dev : Device) (a : String)
    (h : a ∈ aliasStrings dev) : (ensureAlias dev a).2 = false := by
  rw [ensureAlias_snd]; simp [h]

theorem aliasStrings_congr (d1 d2 : Device) (h : d1.specAlias = d2.specAlias) :
    aliasStrings d1 = aliasStrings d2 := by
  unfold aliasStrings; rw [h]

@[simp] theorem aliasStrings_ensureFinalizer (dev : Device) (f : String) :
    aliasStrings (ensureFinalizer dev f).1 = aliasStrings dev :=
  aliasStrings_congr _ _ (by simp)

theorem sweepDevice_not_fired_fixed (dev : Device)
    (h : (sweepDevice dev).2.1 = false) : (sweepDevice dev).1 = dev := by
  rcases hsp : dev.specBtmesh with _ | sp
  · simp only [sweepDevice, hsp]
  · rcases hdt : dev.deletionTimestamp with _ | ts
    · simp only [sweepDevice, hsp, hdt] at h ⊢
      exact finishUpdate_fst_of_not_fired _ _ _ _ h
    · simp only [sweepDevice, hsp, hdt] at h ⊢
      exact finishUpdate_fst_of_not_fired _ _ _ _ h

theorem sweepDevice_converged (reg : Device) (sp : BtMeshSpec)
    (hsp : reg.specBtmesh = some sp)
    (hs : ∃ s, reg.statusBtmesh = some s)
    (ha : sp.device.toLower ∈ aliasStrings reg)
    (hb : reg.deletionTimestamp = none → "btmesh-operator" ∈ reg.finalizers) :
    (sweepDevice reg).2.1 = false := by
  obtain ⟨s, hs⟩ := hs
  have hstored : storedStatus reg = s := by unfold storedStatus; rw [hs]
  rcases hdt : reg.deletionTimestamp with _ | ts
  · have hm1 : (ensureAlias reg sp.device.toLower).2 = false :=
      ensureAlias_snd_of_mem _ _ ha
    have hm2 : (ensureFinalizer (ensureAlias reg sp.device.toLower).1
        "btmesh-operator").2 = false := by
      apply ensureFinalizer_snd_of_mem
      rw [ensureAlias_fst_finalizers]
      exact hb hdt
    have hms : (ensureFinalizer (ensureAlias reg sp.device.toLower).1
        "btmesh-operator").1.statusBtmesh = some (storedStatus reg) := by
      rw [ensureFinalizer_fst_statusBtmesh, ensureAlias_fst_statusBtmesh, hs,
        hstored]
    simp only [sweepDevice, hsp, hdt]
    rw [finishUpdate_snd_stored_same _ _ _ _ hms, hm1, hm2]
    rfl
  · have hm1 : (ensureAlias reg sp.device.toLower).2 = false :=
      ensureAlias_snd_of_mem _ _ ha
    have hms : (ensureAlias reg sp.device.toLower).1.statusBtmesh
        = some (storedStatus reg) := by
      rw [ensureAlias_fst_statusBtmesh, hs, hstored]
    simp only [sweepDevice, hsp, hdt]
    rw [finishUpdate_snd_stored_same _ _ _ _ hms, hm1]

theorem sweepDevice_twice_not_fired (dev : Device) :
    (sweepDevice (sweepDevice dev).1).2.1 = false := by
  rcases hf : (sweepDevice dev).2.1 with _ | _
  · rw [sweepDevice_not_fired_fixed dev hf]
    exact hf
  · rcases hsp : dev.specBtmesh with _ | sp
    · rw [show (sweepDevice dev).2.1 = false from by simp only [sweepDevice, hsp]]
        at hf
      exact Bool.noConfusion hf
    · rcases hdt : dev.deletionTimestamp with _ | ts
      · have hf' : (finishUpdate dev
            (ensureFinalizer (ensureAlias dev sp.device.toLower).1
              "btmesh-operator").1 (storedStatus dev)
            ((ensureAlias dev sp.device.toLower).2 ||
              (ensureFinalizer (ensureAlias dev sp.device.toLower).1
                "btmesh-operator").2)).2 = true := by
          simpa only [sweepDevice, hsp, hdt] using hf
        have hreg := finishUpdate_fst_of_fired _ _ _ _ hf'
        apply sweepDevice_converged _ sp
        · simp only [sweepDevice, hsp, hdt]
          rw [hreg]
          simp [hsp]
        · refine ⟨storedStatus dev, ?_⟩
          simp only [sweepDevice, hsp, hdt]
          rw [hreg]
        · simp only [sweepDevice, hsp, hdt]
          rw [hreg]
          simp only [aliasStrings_set_statusBtmesh, aliasStrings_ensureFinalizer]
          exact mem_aliasStrings_ensureAlias dev sp.device.toLower
        · intro _
          simp only [sweepDevice, hsp, hdt]
          rw [hreg]
          simp only []
          show "btmesh-operator" ∈ (ensureFinalizer
            (ensureAlias dev sp.device.toLower).1 "btmesh-operator").1.finalizers
          exact mem_ensureFinalizer_self _ _
      · have hf' : (finishUpdate dev (ensureAlias dev sp.device.toLower).1
            (storedStatus dev) (ensureAlias dev sp.device.toLower).2).2 = true := by
          simpa only [sweepDevice, hsp, hdt] using hf
        have hreg := finishUpdate_fst_of_fired _ _ _ _ hf'
        apply sweepDevice_converged _ sp
        · simp only [sweepDevice, hsp, hdt]
          rw [hreg]
          simp [hsp]
        · refine ⟨storedStatus dev, ?_⟩
          simp only [sweepDevice, hsp, hdt]
          rw [hreg]
        · simp only [sweepDevice, hsp, hdt]
          rw [hreg]
          simp only [aliasStrings_set_statusBtmesh]
          exact mem_aliasStrings_ensureAlias dev sp.device.toLower
        · intro h0
          exfalso
          rw [show (sweepDevice dev).1.deletionTimestamp = some ts from by
            simp only [sweepDevice, hsp, hdt]
            rw [hreg]
            simp [hdt]] at h0
          exact Option.noConfusion h0

/-- C5: two reconcile sweeps with no intervening events and no registry
mutation other than the first sweep itself: the second sweep makes zero
registry update_device calls, because the first sweep leaves every device
with its alias normalized, the finalizer ensured, and the status section
equal to the recomputed one. -/
theorem sweep_idempotent (devs : List Device) :
    (sweepAll (sweepAll devs).1).2 = 0 := by
  unfold sweepAll
  rw [List.length_eq_zero, List.filter_eq_nil_iff]
  intro d hd
  obtain ⟨d0, _, rfl⟩ := List.mem_map.mp hd
  simp [sweepDevice_twice_not_fired d0]

/-! Claim C6: event idempotence. Support lemmas first. -/

theorem preFinalize_none (dev : Device) (h : dev.deletionTimestamp = none) :
    preFinalize dev = ensureFinalizer dev "btmesh-operator" := by
  unfold preFinalize; rw [h]

theorem preFinalize_some (dev : Device) (ts : String)
    (h : dev.deletionTimestamp = some ts) : preFinalize dev = (dev, false) := by
  unfold preFinalize; rw [h]

theorem preFinalize_fst_of_mem (dev : Device)
    (h : "btmesh-operator" ∈ dev.finalizers) : preFinalize dev = (dev, false) := by
  rcases hdt : dev.deletionTimestamp with _ | ts
  · rw [preFinalize_none dev hdt]
    exact ensureFinalizer_of_mem dev _ h
  · exact preFinalize_some dev ts hdt

theorem preFinalize_mem_self_of_none (dev : Device)
    (h : dev.deletionTimestamp = none) :
    "btmesh-operator" ∈ (preFinalize dev).1.finalizers := by
  rw [preFinalize_none dev h]
  exact mem_ensureFinalizer_self dev _

theorem ensureFinalizer_of_not_mem (dev : Device) (f : String)
    (h : f ∉ dev.finalizers) :
    ensureFinalizer dev f = ({ dev with finalizers := dev.finalizers ++ [f] },
      true) := by
  unfold ensureFinalizer; rw [if_neg h]

theorem storedStatus_of_some (dev : Device) (s : BtMeshStatus)
    (h : dev.statusBtmesh = some s) : storedStatus dev = s := by
  unfold storedStatus; rw [h]

theorem resetOkConds_stable (t1 t2 : Nat) (cs : List Condition) :
    resetOkConds t2 (resetOkConds t1 cs) = resetOkConds t1 cs := by
  unfold resetOkConds
  exact updateConditions2_stable cs _ _ _ _ t1 t2 (by decide)

theorem resetErrConds_stable (msg : String) (t1 t2 : Nat) (cs : List Condition) :
    resetErrConds msg t2 (resetErrConds msg t1 cs) = resetErrConds msg t1 cs := by
  unfold resetErrConds
  exact updateConditions2_stable cs _ _ _ _ t1 t2 (by decide)

theorem provisionedConds_stable (t1 t2 : Nat) (cs : List Condition) :
    provisionedConds t2 (provisionedConds t1 cs) = provisionedConds t1 cs := by
  unfold provisionedConds
  exact updateConditions2_stable cs _ _ _ _ t1 t2 (by decide)

theorem provisioningConds_stable (err : Option String) (t1 t2 : Nat)
    (cs : List Condition) :
    provisioningConds err t2 (provisioningConds err t1 cs)
      = provisioningConds err t1 cs := by
  unfold provisioningConds
  exact updateConditions2_stable cs _ _ _ _ t1 t2 (by decide)

theorem provisioningConds_time_indep (err : Option String) (t1 t2 : Nat)
    (cs : List Condition) (h : provisioningConds err t1 cs = cs) :
    provisioningConds err t2 cs = cs := by
  unfold provisioningConds at h ⊢
  exact updateConditions2_time_indep cs _ _ _ _ t1 t2 (by decide) h

theorem finishUpdate_snd_false_of (orig mutated : Device) (st : BtMeshStatus)
    (u : Bool) (hu : u = false)
    (hs : ∀ s, mutated.statusBtmesh = some s → st = s) :
    (finishUpdate orig mutated st u).2 = false := by
  subst hu
  unfold finishUpdate updateDevice updateNeeded
  cases hm : mutated.statusBtmesh with
  | none => simp
  | some s => simp [hs s hm]

theorem eventStep_fst_of_not_fired (e : BtMeshDeviceState) (t : Nat)
    (dev : Device) (h : (eventStep e t dev).2 = false) :
    (eventStep e t dev).1 = dev := by
  cases e with
  | Reset d err =>
    cases err with
    | none =>
      simp only [eventStep] at h ⊢
      exact finishUpdate_fst_of_not_fired _ _ _ _ h
    | some msg =>
      simp only [eventStep] at h ⊢
      exact finishUpdate_fst_of_not_fired _ _ _ _ h
  | Provisioned d a =>
    simp only [eventStep] at h ⊢
    exact finishUpdate_fst_of_not_fired _ _ _ _ h
  | Provisioning d err =>
    by_cases hg : (storedStatus (preFinalize dev).1).address = none
    · simp only [eventStep] at h ⊢
      rw [if_pos hg] at h ⊢
      exact finishUpdate_fst_of_not_fired _ _ _ _ h
    · simp only [eventStep] at h ⊢
      rw [if_neg hg] at h ⊢
      exact finishUpdate_fst_of_not_fired _ _ _ _ h

theorem provisioning_not_fired_time_indep (d : String) (err : Option String)
    (t1 t2 : Nat) (dev : Device)
    (h : (eventStep (BtMeshDeviceState.Provisioning d err) t1 dev).2 = false) :
    (eventStep (BtMeshDeviceState.Provisioning d err) t2 dev).2 = false := by
  by_cases hg : (storedStatus (preFinalize dev).1).address = none
  · simp only [eventStep] at h ⊢
    rw [if_pos hg] at h ⊢
    obtain ⟨hu, hstat⟩ := finishUpdate_not_fired _ _ _ _ h
    apply finishUpdate_snd_false_of _ _ _ _ hu
    intro s hs
    have h1 := hstat s hs
    have hss : storedStatus (preFinalize dev).1 = s :=
      storedStatus_of_some _ s hs
    have hc : provisioningConds err t1 s.conditions = s.conditions := by
      have := congrArg BtMeshStatus.conditions h1
      rw [hss] at this
      exact this
    have hc2 := provisioningConds_time_indep err t1 t2 s.conditions hc
    rw [hss]
    have haddr : s.address = none := by rw [← hss]; exact hg
    calc (⟨provisioningConds err t2 s.conditions, s.address⟩ : BtMeshStatus)
        = ⟨s.conditions, s.address⟩ := by rw [hc2]
      _ = s := rfl
  · simp only [eventStep] at h ⊢
    rw [if_neg hg] at h ⊢
    exact h

theorem reset_none_second (nm : String) (dtv : Option String) (fin : List String)
    (spB : Option BtMeshSpec) (spA : Option JValue) (cs0 : List Condition)
    (a0 : Option Nat) (d2 : String) (t1 t2 : Nat)
    (hnb : "btmesh-operator" ∉ fin) :
    (eventStep (BtMeshDeviceState.Reset d2 none) t2
      ⟨nm, dtv, fin, spB, spA, some ⟨resetOkConds t1 cs0, a0⟩⟩).1
      = ⟨nm, dtv, fin, spB, spA, some ⟨resetOkConds t1 cs0, a0⟩⟩ := by
  rcases dtv with _ | ts
  · simp only [eventStep, preFinalize, storedStatus]
    rw [ensureFinalizer_of_not_mem _ _ hnb]
    simp only [removeFinalizer]
    rw [if_pos (by simp)]
    rw [finishUpdate_of_update]
    simp only [List.filter_append, resetOkConds_stable,
      filter_bne_self_of_not_mem _ _ hnb]
    simp
  · simp only [eventStep, preFinalize, storedStatus, removeFinalizer]
    rw [if_neg hnb]
    rw [finishUpdate_of_update]
    rw [resetOkConds_stable]

theorem reset_err_second (nm : String) (dtv : Option String) (fin : List String)
    (spB : Option BtMeshSpec) (spA : Option JValue) (cs0 : List Condition)
    (a0 : Option Nat) (msg d2 : String) (t1 t2 : Nat)
    (hb : dtv = none → "btmesh-operator" ∈ fin) :
    (eventStep (BtMeshDeviceState.Reset d2 (some msg)) t2
      ⟨nm, dtv, fin, spB, spA, some ⟨resetErrConds msg t1 cs0, a0⟩⟩).1
      = ⟨nm, dtv, fin, spB, spA, some ⟨resetErrConds msg t1 cs0, a0⟩⟩ := by
  have hpre : preFinalize
      (⟨nm, dtv, fin, spB, spA, some ⟨resetErrConds msg t1 cs0, a0⟩⟩ : Device)
      = (⟨nm, dtv, fin, spB, spA, some ⟨resetErrConds msg t1 cs0, a0⟩⟩, false) := by
    rcases dtv with _ | ts
    · exact preFinalize_fst_of_mem _ (hb rfl)
    · exact preFinalize_some _ ts rfl
  simp only [eventStep, hpre, storedStatus]
  rw [finishUpdate_of_update]
  rw [resetErrConds_stable]

theorem provisioned_second (nm : String) (dtv : Option String) (fin : List String)
    (spB : Option BtMeshSpec) (aliasL : List String) (csP : List Condition)
    (a : Nat) (d2 : String) (t1 t2 : Nat)
    (hb : dtv = none → "btmesh-operator" ∈ fin)
    (hmem : addressAlias a ∈ aliasL) :
    (eventStep (BtMeshDeviceState.Provisioned d2 a) t2
      ⟨nm, dtv, fin, spB, some (JValue.arr (aliasL.map JValue.str)),
        some ⟨provisionedConds t1 csP, some a⟩⟩).1
      = ⟨nm, dtv, fin, spB, some (JValue.arr (aliasL.map JValue.str)),
        some ⟨provisionedConds t1 csP, some a⟩⟩ := by
  have hpre : preFinalize
      (⟨nm, dtv, fin, spB, some (JValue.arr (aliasL.map JValue.str)),
        some ⟨provisionedConds t1 csP, some a⟩⟩ : Device)
      = (⟨nm, dtv, fin, spB, some (JValue.arr (aliasL.map JValue.str)),
        some ⟨provisionedConds t1 csP, some a⟩⟩, false) := by
    rcases dtv with _ | ts
    · exact preFinalize_fst_of_mem _ (hb rfl)
    · exact preFinalize_some _ ts rfl
  have hal : aliasStrings
      (⟨nm, dtv, fin, spB, some (JValue.arr (aliasL.map JValue.str)),
        some ⟨provisionedConds t1 csP, some a⟩⟩ : Device) = aliasL :=
    filterMap_asStr_map_str aliasL
  simp only [eventStep, hpre, storedStatus, ensureAlias]
  rw [if_pos (hal.symm ▸ hmem), hal]
  rw [finishUpdate_of_update]
  rw [provisionedConds_stable]

theorem provisioning_second (nm : String) (dtv : Option String) (fin : List String)
    (spB : Option BtMeshSpec) (spA : Option JValue) (cs0 : List Condition)
    (err : Option String) (d2 : String) (t1 t2 : Nat)
    (hb : dtv = none → "btmesh-operator" ∈ fin) :
    eventStep (BtMeshDeviceState.Provisioning d2 err) t2
      ⟨nm, dtv, fin, spB, spA, some ⟨provisioningConds err t1 cs0, none⟩⟩
      = (⟨nm, dtv, fin, spB, spA, some ⟨provisioningConds err t1 cs0, none⟩⟩,
        false) := by
  have hpre : preFinalize
      (⟨nm, dtv, fin, spB, spA, some ⟨provisioningConds err t1 cs0, none⟩⟩ :
        Device)
      = (⟨nm, dtv, fin, spB, spA, some ⟨provisioningConds err t1 cs0, none⟩⟩,
        false) := by
    rcases dtv with _ | ts
    · exact preFinalize_fst_of_mem _ (hb rfl)
    · exact preFinalize_some _ ts rfl
  simp only [eventStep, hpre, storedStatus]
  rw [if_pos trivial]
  rw [provisioningConds_stable]
  exact finishUpdate_stored_same_false _ _ _ rfl

theorem provisioning_second_pinned (dev : Device) (st : BtMeshStatus) (a : Nat)
    (d2 : String) (err : Option String) (t2 : Nat)
    (hst : dev.statusBtmesh = some st) (ha : st.address = some a)
    (hb : dev.deletionTimestamp = none → "btmesh-operator" ∈ dev.finalizers) :
    eventStep (BtMeshDeviceState.Provisioning d2 err) t2 dev = (dev, false) := by
  have hpre : preFinalize dev = (dev, false) := by
    rcases hdt : dev.deletionTimestamp with _ | ts
    · exact preFinalize_fst_of_mem _ (hb hdt)
    · exact preFinalize_some dev ts hdt
  simp only [eventStep, hpre]
  rw [storedStatus_of_some dev st hst]
  rw [if_neg (by rw [ha]; simp)]
  exact finishUpdate_stored_same_false _ _ _ hst

theorem eventStep_reset_none_fix (d : String) (t1 t2 : Nat) (dev : Device) :
    (eventStep (BtMeshDeviceState.Reset d none) t2
        (eventStep (BtMeshDeviceState.Reset d none) t1 dev).1).1
      = (eventStep (BtMeshDeviceState.Reset d none) t1 dev).1 := by
  have hstep1 : eventStep (BtMeshDeviceState.Reset d none) t1 dev =
      ({ (removeFinalizer (preFinalize dev).1 "btmesh-operator").1 with
          statusBtmesh := some
            ⟨resetOkConds t1 (storedStatus (preFinalize dev).1).conditions,
             (storedStatus (preFinalize dev).1).address⟩ }, true) := by
    simp only [eventStep]
    rw [finishUpdate_of_update]
  rw [hstep1]
  exact reset_none_second _ _ _ _ _ _ _ d t1 t2 (not_mem_removeFinalizer _ _)

theorem eventStep_reset_err_fix (d msg : String) (t1 t2 : Nat) (dev : Device) :
    (eventStep (BtMeshDeviceState.Reset d (some msg)) t2
        (eventStep (BtMeshDeviceState.Reset d (some msg)) t1 dev).1).1
      = (eventStep (BtMeshDeviceState.Reset d (some msg)) t1 dev).1 := by
  have hstep1 : eventStep (BtMeshDeviceState.Reset d (some msg)) t1 dev =
      ({ (preFinalize dev).1 with
          statusBtmesh := some
            ⟨resetErrConds msg t1 (storedStatus (preFinalize dev).1).conditions,
             (storedStatus (preFinalize dev).1).address⟩ }, true) := by
    simp only [eventStep]
    rw [finishUpdate_of_update]
  rw [hstep1]
  exact reset_err_second _ _ _ _ _ _ _ msg d t1 t2
    (fun h0 => preFinalize_mem_self_of_none dev (by simpa using h0))

theorem eventStep_provisioned_fix (d : String) (a t1 t2 : Nat) (dev : Device) :
    (eventStep (BtMeshDeviceState.Provisioned d a) t2
        (eventStep (BtMeshDeviceState.Provisioned d a) t1 dev).1).1
      = (eventStep (BtMeshDeviceState.Provisioned d a) t1 dev).1 := by
  have hstep1 : eventStep (BtMeshDeviceState.Provisioned d a) t1 dev =
      ({ (ensureAlias (preFinalize dev).1 (addressAlias a)).1 with
          statusBtmesh := some
            ⟨provisionedConds t1 (storedStatus (preFinalize dev).1).conditions,
             some a⟩ }, true) := by
    simp only [eventStep]
    rw [finishUpdate_of_update]
  rw [hstep1]
  simp only [ensureAlias_fst_specAlias]
  have hb : (ensureAlias (preFinalize dev).1 (addressAlias a)).1.deletionTimestamp
        = none → "btmesh-operator" ∈
        (ensureAlias (preFinalize dev).1 (addressAlias a)).1.finalizers := by
    intro h0
    rw [ensureAlias_fst_finalizers]
    exact preFinalize_mem_self_of_none dev (by simpa using h0)
  have hmem : addressAlias a ∈
      (if addressAlias a ∈ aliasStrings (preFinalize dev).1 then
        aliasStrings (preFinalize dev).1
      else aliasStrings (preFinalize dev).1 ++ [addressAlias a]) := by
    rw [← aliasStrings_ensureAlias]
    exact mem_aliasStrings_ensureAlias _ _
  exact provisioned_second _ _ _ _ _ _ a d t1 t2 hb hmem

theorem eventStep_provisioning_fix (d : String) (err : Option String)
    (t1 t2 : Nat) (dev : Device) :
    (eventStep (BtMeshDeviceState.Provisioning d err) t2
        (eventStep (BtMeshDeviceState.Provisioning d err) t1 dev).1).1
      = (eventStep (BtMeshDeviceState.Provisioning d err) t1 dev).1 := by
  rcases hfired : (eventStep (BtMeshDeviceState.Provisioning d err) t1 dev).2
      with _ | _
  · rw [eventStep_fst_of_not_fired _ _ _ hfired]
    exact eventStep_fst_of_not_fired _ _ _
      (provisioning_not_fired_time_indep d err t1 t2 dev hfired)
  · rcases hguard : (storedStatus (preFinalize dev).1).address with _ | a
    · have hstep1 : eventStep (BtMeshDeviceState.Provisioning d err) t1 dev =
          ({ (preFinalize dev).1 with
              statusBtmesh := some
                ⟨provisioningConds err t1
                  (storedStatus (preFinalize dev).1).conditions, none⟩ },
            true) := by
        have heq : eventStep (BtMeshDeviceState.Provisioning d err) t1 dev
            = finishUpdate dev (preFinalize dev).1
              ⟨provisioningConds err t1
                (storedStatus (preFinalize dev).1).conditions,
               (storedStatus (preFinalize dev).1).address⟩
              (preFinalize dev).2 := by
          simp only [eventStep]
          rw [if_pos hguard]
        rw [heq] at hfired ⊢
        rw [hguard] at hfired ⊢
        exact Prod.ext (finishUpdate_fst_of_fired _ _ _ _ hfired) hfired
      rw [hstep1]
      have hfix := provisioning_second
        (preFinalize dev).1.name (preFinalize dev).1.deletionTimestamp
        (preFinalize dev).1.finalizers (preFinalize dev).1.specBtmesh
        (preFinalize dev).1.specAlias
        (storedStatus (preFinalize dev).1).conditions err d t1 t2
        (fun h0 => preFinalize_mem_self_of_none dev (by simpa using h0))
      rw [show (⟨(preFinalize dev).1.name, (preFinalize dev).1.deletionTimestamp,
          (preFinalize dev).1.finalizers, (preFinalize dev).1.specBtmesh,
          (preFinalize dev).1.specAlias,
          some ⟨provisioningConds err t1
            (storedStatus (preFinalize dev).1).conditions, none⟩⟩ : Device)
          = { (preFinalize dev).1 with
              statusBtmesh := some
                ⟨provisioningConds err t1
                  (storedStatus (preFinalize dev).1).conditions, none⟩ }
          from rfl] at hfix
      rw [hfix]
    · have hstep1 : eventStep (BtMeshDeviceState.Provisioning d err) t1 dev =
          ({ (preFinalize dev).1 with
              statusBtmesh := some (storedStatus (preFinalize dev).1) },
            true) := by
        have heq : eventStep (BtMeshDeviceState.Provisioning d err) t1 dev
            = finishUpdate dev (preFinalize dev).1
              (storedStatus (preFinalize dev).1) (preFinalize dev).2 := by
          simp only [eventStep]
          rw [if_neg (by rw [hguard]; simp)]
        rw [heq] at hfired ⊢
        exact Prod.ext (finishUpdate_fst_of_fired _ _ _ _ hfired) hfired
      rw [hstep1]
      have hfix := provisioning_second_pinned
        ({ (preFinalize dev).1 with
            statusBtmesh := some (storedStatus (preFinalize dev).1) })
        (storedStatus (preFinalize dev).1) a d err t2 (by simp)
        hguard
        (fun h0 => by
          show "btmesh-operator" ∈ (preFinalize dev).1.finalizers
          exact preFinalize_mem_self_of_none dev (by simpa using h0))
      rw [hfix]

/-- C6: applying the same btmesh event twice, at any two model times, leaves
the status subsection (conditions, reasons, messages, transition times, and
address) and the finalizer set bit-equal to applying it once: condition
updates restamp transition times only on status change, the alias rewrite
is stable on normalized content, and the finalizer add and remove reach
fixed points. -/
theorem event_twice_idempotent (e : BtMeshDeviceState) (t1 t2 : Nat)
    (dev : Device) :
    (eventStep e t2 (eventStep e t1 dev).1).1.statusBtmesh
      = (eventStep e t1 dev).1.statusBtmesh ∧
    (eventStep e t2 (eventStep e t1 dev).1).1.finalizers
      = (eventStep e t1 dev).1.finalizers := by
  have hfix : (eventStep e t2 (eventStep e t1 dev).1).1
      = (eventStep e t1 dev).1 := by
    cases e with
    | Provisioning d err => exact eventStep_provisioning_fix d err t1 t2 dev
    | Provisioned d a => exact eventStep_provisioned_fix d a t1 t2 dev
    | Reset d err =>
      cases err with
      | none => exact eventStep_reset_none_fix d t1 t2 dev
      | some msg => exact eventStep_reset_err_fix d msg t1 t2 dev
  exact ⟨by rw [hfix], by rw [hfix]⟩

end BtMeshOperator
